import Mathlib

/-!
Verification of the Starbucks recommendation system.

The repository contains a React frontend (App page state machine,
ResultsPage selection toggling) and documents a Python ranking core
(constraint model, scoring engine with a 1.25x boost, retrieval with
progressive constraint relaxation, ranker, evaluator).  The frontend
components are embedded below directly from their JSX sources; the
ranking core, whose Python sources are not part of this tree, is
modelled from the specification (each such definition is marked
`Modelled from the spec:`).  All real-valued quantities (prices,
similarity scores) are embedded as rationals.
-/

namespace StarbucksRec

/-! ## Constraint model (spec-modelled ranking core) -/

/-- Modelled from the spec: product category enumeration of the Item
record (spec 3; the Python data model is not under version control
here). -/
inductive Category
  | espresso
  | brewedCoffee
  | coldBrew
  | tea
  | refresher
  | frappuccino
deriving DecidableEq

/-- Modelled from the spec: serving temperature of an Item (spec 3). -/
inductive Temperature
  | hot
  | iced
deriving DecidableEq

/-- Modelled from the spec: immutable catalog record with identifier,
category, temperature, numeric attributes and dietary flags (spec 3). -/
structure Item where
  id : String
  name : String
  category : Category
  temperature : Temperature
  price : ℚ
  calories : ℚ
  sugar_g : ℚ
  caffeine_mg : ℚ
  vegan : Bool
  dairy_free : Bool
deriving DecidableEq

/-- Modelled from the spec: constraint set extracted from one query;
every field is optional, absence meaning unconstrained; a dietary flag
set to `true` means the query requires it (spec 3). -/
structure ConstraintSet where
  category : Option Category
  temperature : Option Temperature
  max_price : Option ℚ
  max_calories : Option ℚ
  max_sugar_g : Option ℚ
  max_caffeine_mg : Option ℚ
  vegan : Bool
  dairy_free : Bool
deriving DecidableEq

/-- The fully unconstrained constraint set. -/
def emptyConstraints : ConstraintSet :=
  ⟨none, none, none, none, none, none, false, false⟩

/-- A numeric ceiling passes when absent or when the value is `≤` the
bound. -/
def passCeiling (bound : Option ℚ) (v : ℚ) : Bool :=
  match bound with
  | none => true
  | some b => decide (v ≤ b)

/-- An exact-match field passes when absent or equal. -/
def passExact {α : Type} [DecidableEq α] (c : Option α) (v : α) : Bool :=
  match c with
  | none => true
  | some x => decide (v = x)

/-- Modelled from the spec: `matches(item, constraints)` is true iff
every populated field is satisfied; category/temperature use exact
match, numeric ceilings use `≤`, dietary flags require the corresponding
item boolean to be true, absent fields always pass (spec 4.1). -/
def matchesConstraints (item : Item) (c : ConstraintSet) : Bool :=
  passExact c.category item.category &&
  passExact c.temperature item.temperature &&
  passCeiling c.max_price item.price &&
  passCeiling c.max_calories item.calories &&
  passCeiling c.max_sugar_g item.sugar_g &&
  passCeiling c.max_caffeine_mg item.caffeine_mg &&
  (!c.vegan || item.vegan) &&
  (!c.dairy_free || item.dairy_free)

/-- The eight relaxable constraint fields. -/
inductive CField
  | max_price
  | max_calories
  | max_sugar_g
  | max_caffeine_mg
  | vegan
  | dairy_free
  | category
  | temperature
deriving DecidableEq

/-- Relaxation priority, least important first: numeric ceilings, then
dietary flags, then category/temperature (spec 4.1). -/
def priority : CField → ℕ
  | .max_price => 0
  | .max_calories => 1
  | .max_sugar_g => 2
  | .max_caffeine_mg => 3
  | .vegan => 4
  | .dairy_free => 5
  | .category => 6
  | .temperature => 7

/-- Whether a field of the constraint set is populated. -/
def isPopulated (c : ConstraintSet) : CField → Bool
  | .max_price => c.max_price.isSome
  | .max_calories => c.max_calories.isSome
  | .max_sugar_g => c.max_sugar_g.isSome
  | .max_caffeine_mg => c.max_caffeine_mg.isSome
  | .vegan => c.vegan
  | .dairy_free => c.dairy_free
  | .category => c.category.isSome
  | .temperature => c.temperature.isSome

/-- Clear one field of the constraint set. -/
def removeField (c : ConstraintSet) : CField → ConstraintSet
  | .max_price => { c with max_price := none }
  | .max_calories => { c with max_calories := none }
  | .max_sugar_g => { c with max_sugar_g := none }
  | .max_caffeine_mg => { c with max_caffeine_mg := none }
  | .vegan => { c with vegan := false }
  | .dairy_free => { c with dairy_free := false }
  | .category => { c with category := none }
  | .temperature => { c with temperature := none }

/-- Number of populated fields of a constraint set. -/
def numPopulated (c : ConstraintSet) : ℕ :=
  (if c.max_price.isSome then 1 else 0) +
  (if c.max_calories.isSome then 1 else 0) +
  (if c.max_sugar_g.isSome then 1 else 0) +
  (if c.max_caffeine_mg.isSome then 1 else 0) +
  (if c.vegan then 1 else 0) +
  (if c.dairy_free then 1 else 0) +
  (if c.category.isSome then 1 else 0) +
  (if c.temperature.isSome then 1 else 0)

/-- Modelled from the spec: `relax(constraints)` removes exactly one
populated field, chosen by the fixed priority order above; returns
`none` (signalling NoMoreConstraintsToRelax) on an already-empty set
(spec 4.1). -/
def relax (c : ConstraintSet) : Option ConstraintSet :=
  if c.max_price.isSome then some (removeField c .max_price)
  else if c.max_calories.isSome then some (removeField c .max_calories)
  else if c.max_sugar_g.isSome then some (removeField c .max_sugar_g)
  else if c.max_caffeine_mg.isSome then some (removeField c .max_caffeine_mg)
  else if c.vegan then some (removeField c .vegan)
  else if c.dairy_free then some (removeField c .dairy_free)
  else if c.category.isSome then some (removeField c .category)
  else if c.temperature.isSome then some (removeField c .temperature)
  else none

/-! ## Scoring engine (spec-modelled) -/

/-- Modelled from the spec: the named boost configuration constant,
25% (spec 4.2, README "score *= 1.25"). -/
def BOOST_FACTOR : ℚ := 1.25

/-- Modelled from the spec: `score(base_similarity, satisfies_all)`
multiplies by the boost factor when all constraints are satisfied,
otherwise returns the base similarity unchanged (spec 4.2). -/
def score (base_similarity : ℚ) (satisfies_all : Bool) : ℚ :=
  if satisfies_all then BOOST_FACTOR * base_similarity else base_similarity

/-! ## Ranker (spec-modelled) -/

/-- Modelled from the spec: a retrieved candidate, an item paired with
its caller-supplied base similarity (spec 3, 6). -/
structure Candidate where
  item : Item
  base_similarity : ℚ
deriving DecidableEq

/-- Modelled from the spec: ScoredCandidate — item, raw similarity,
satisfies-all flag, and final boosted score (spec 3). -/
structure ScoredCandidate where
  item : Item
  base_similarity : ℚ
  satisfies_all : Bool
  final_score : ℚ
deriving DecidableEq

/-- Score one candidate: compute the satisfies-all flag once and the
boosted final score (spec 4.4). -/
def scoreCandidate (c : ConstraintSet) (cand : Candidate) : ScoredCandidate :=
  let sat := matchesConstraints cand.item c
  ⟨cand.item, cand.base_similarity, sat, score cand.base_similarity sat⟩

/-- Lexicographic sort key of spec 4.4: descending final score, ties
broken by satisfies-all true before false, then lower price, then
identifier ascending. -/
def rankKey (a : ScoredCandidate) : Lex (ℚ × Lex (Bool × Lex (ℚ × String))) :=
  toLex (-a.final_score, toLex (!a.satisfies_all, toLex (a.item.price, a.item.id)))

/-- The ranking order of spec 4.4; `RankPrecedes a b` means `a` is
placed at or before `b`. -/
def RankPrecedes (a b : ScoredCandidate) : Prop :=
  rankKey a ≤ rankKey b

instance : DecidableRel RankPrecedes := fun a b =>
  inferInstanceAs (Decidable (rankKey a ≤ rankKey b))

instance : IsTotal ScoredCandidate RankPrecedes :=
  ⟨fun a b => le_total (rankKey a) (rankKey b)⟩

instance : IsTrans ScoredCandidate RankPrecedes :=
  ⟨fun _ _ _ hab hbc => le_trans hab hbc⟩

/-- Modelled from the spec: the InvalidArgument error signalled on a
non-positive `top_k` (spec 4.4, 7). -/
inductive RankError
  | invalidArgument
deriving DecidableEq

/-- Modelled from the spec: RankedResult — the ordered candidates with
the effective constraint set attached (spec 3). -/
structure RankedResult where
  results : List ScoredCandidate
  effective_constraints : ConstraintSet
deriving DecidableEq

instance : DecidableEq (Except RankError RankedResult) := fun a b =>
  match a, b with
  | .error e, .error e' => decidable_of_iff (e = e') (by simp)
  | .ok r, .ok r' => decidable_of_iff (r = r') (by simp)
  | .error _, .ok _ => isFalse (by simp)
  | .ok _, .error _ => isFalse (by simp)

/-- Modelled from the spec: `rank(candidates, constraints, top_k)`
scores every candidate, sorts by the ranking order and truncates to
`top_k`; a non-positive `top_k` signals InvalidArgument (spec 4.4). -/
def rank (candidates : List Candidate) (constraints : ConstraintSet)
    (top_k : ℤ) : Except RankError RankedResult :=
  if top_k ≤ 0 then Except.error RankError.invalidArgument
  else
    Except.ok
      ⟨((candidates.map (scoreCandidate constraints)).insertionSort
          RankPrecedes).take top_k.toNat,
       constraints⟩

/-! ## Retrieval orchestrator (spec-modelled) -/

/-- Modelled from the spec: result of `retrieve` — the candidate pool,
the effective (possibly relaxed) constraints, and the number of
relaxation steps performed (spec 4.3). -/
structure RetrieveResult where
  candidates : List Candidate
  effective_constraints : ConstraintSet
  relaxation_steps : ℕ
deriving DecidableEq

/-- Modelled from the spec: the relaxation loop of `retrieve`, with the
remaining relaxation budget as an explicit counter; stops as soon as
enough candidates are found, the budget is exhausted, or no constraint
is left to relax (spec 4.3, 5). The Item Index is the external
collaborator `index` (spec 6). -/
def retrieveLoop (index : ConstraintSet → List Candidate)
    (min_candidates : ℕ) : ℕ → ConstraintSet → RetrieveResult
  | 0, c => ⟨index c, c, 0⟩
  | fuel + 1, c =>
    let cands := index c
    if min_candidates ≤ cands.length then ⟨cands, c, 0⟩
    else
      match relax c with
      | none => ⟨cands, c, 0⟩
      | some c' =>
        let r := retrieveLoop index min_candidates fuel c'
        ⟨r.candidates, r.effective_constraints, r.relaxation_steps + 1⟩

/-- Modelled from the spec: `retrieve(constraints, min_candidates,
max_relaxations)` (spec 4.3). -/
def retrieve (index : ConstraintSet → List Candidate)
    (constraints : ConstraintSet) (min_candidates max_relaxations : ℕ) :
    RetrieveResult :=
  retrieveLoop index min_candidates max_relaxations constraints

/-! ## Evaluator (spec-modelled) -/

/-- Modelled from the spec: `recall_at_k(ranked_ids, relevant_id_set,
k)` — the fraction of the relevant set present in the first `k` ranked
ids, defined as 1 on an empty relevant set (spec 4.5). -/
def recall_at_k (ranked_ids : List String) (relevant_id_set : Finset String)
    (k : ℕ) : ℚ :=
  if relevant_id_set = ∅ then 1
  else
    ((relevant_id_set.filter (fun id => id ∈ ranked_ids.take k)).card : ℚ) /
      (relevant_id_set.card : ℚ)

/-! ## Frontend: selection toggling (src/unnamed/part_001 and part_002,
ResultsPage.jsx) -/

/-- Function `toggleProductSelection` from ResultsPage.jsx: if the
product id is in the current selection, filter it out, otherwise append
it. -/
def toggleProductSelection (prev : List String) (productId : String) :
    List String :=
  if prev.contains productId then prev.filter (fun id => id != productId)
  else prev ++ [productId]

/-! ## Frontend: App page state machine (src/unnamed/part_000, App.jsx) -/

/-- The three pages rendered by App.jsx. -/
inductive Page
  | landing
  | results
  | order
deriving DecidableEq

/-- A query card from LandingPage.jsx (frontend/src/data/queries). -/
structure Query where
  id : String
  text : String
deriving DecidableEq

/-- A product as displayed by ResultsPage.jsx / OrderPage.jsx. -/
structure Product where
  product_id : String
  name : String
  sim_score : ℚ
  category : String
  temperature : String
  price : ℚ
  calories : ℚ
  sugar_g : ℚ
  caffeine_mg : ℚ
deriving DecidableEq

/-- The four useState hooks of App.jsx. -/
structure AppState where
  currentPage : Page
  selectedQuery : Option Query
  selectedProductIds : List String
  allProducts : List Product
deriving DecidableEq

/-- The initial state of App.jsx: landing page, no query, empty
selection, empty product list. -/
def initialAppState : AppState :=
  ⟨Page.landing, none, [], []⟩

/-- The events App.jsx can handle (its handler callbacks). -/
inductive AppEvent
  | selectQuery (q : Query)
  | placeOrder (productIds : List String) (products : List Product)
  | backToLanding
  | backToResults
  | orderConfirm
deriving DecidableEq

/-- Handler `handleBackToLanding` from App.jsx: clears the query, the
selected ids and the product list, then shows the landing page. -/
def handleBackToLanding (s : AppState) : AppState :=
  { s with selectedQuery := none, selectedProductIds := [],
           allProducts := [], currentPage := Page.landing }

/-- One transition of the App.jsx state machine; `orderConfirm`
delegates to `handleBackToLanding` exactly as `handleOrderConfirm`
does. -/
def appStep (s : AppState) : AppEvent → AppState
  | .selectQuery q =>
      { s with selectedQuery := some q, currentPage := Page.results }
  | .placeOrder ids ps =>
      { s with selectedProductIds := ids, allProducts := ps,
               currentPage := Page.order }
  | .backToLanding => handleBackToLanding s
  | .backToResults => { s with currentPage := Page.results }
  | .orderConfirm => handleBackToLanding s

/-- Run the App state machine from the initial state over a sequence of
events. -/
def runApp (events : List AppEvent) : AppState :=
  events.foldl appStep initialAppState

/-! ## Concrete test fixtures -/

/-- Scenario A (spec 8, README): item X, a cheap vegan espresso. -/
def itemX : Item :=
  ⟨"ESP_003", "Espresso", Category.espresso, Temperature.hot,
   2.95, 5, 0, 75, true, true⟩

/-- Scenario A (spec 8, README): item Y, an expensive non-vegan latte. -/
def itemY : Item :=
  ⟨"ESP_014", "Premium Oat Milk Latte", Category.espresso, Temperature.hot,
   7.50, 250, 28, 150, false, false⟩

/-- Scenario A constraints: max price 5.0 and vegan required. -/
def scenarioConstraints : ConstraintSet :=
  ⟨none, none, some 5, none, none, none, true, false⟩

/-- A small constraint set used as a relaxation witness: a price
ceiling of 5 and a vegan requirement. -/
def cWitness : ConstraintSet :=
  ⟨none, none, some 5, none, none, none, true, false⟩

/-- The set `cWitness` after one relaxation: the price ceiling is gone,
the vegan requirement stays. -/
def cWitnessRelaxed : ConstraintSet :=
  ⟨none, none, none, none, none, none, true, false⟩

/-! ## Helper lemmas -/

theorem relax_eq_none_iff (c : ConstraintSet) :
    relax c = none ↔ numPopulated c = 0 := by
  unfold relax
  split_ifs <;> simp_all [numPopulated]

theorem relax_some (c c' : ConstraintSet) (h : relax c = some c') :
    ∃ f, isPopulated c f = true ∧ c' = removeField c f ∧
      ∀ g, isPopulated c g = true → priority f ≤ priority g := by
  unfold relax at h
  split_ifs at h with h1 h2 h3 h4 h5 h6 h7 h8 <;>
    obtain rfl := (Option.some.inj h).symm
  · exact ⟨.max_price, h1, rfl, by
      intro g hg; cases g <;> simp_all [isPopulated, priority]⟩
  · exact ⟨.max_calories, h2, rfl, by
      intro g hg; cases g <;> simp_all [isPopulated, priority]⟩
  · exact ⟨.max_sugar_g, h3, rfl, by
      intro g hg; cases g <;> simp_all [isPopulated, priority]⟩
  · exact ⟨.max_caffeine_mg, h4, rfl, by
      intro g hg; cases g <;> simp_all [isPopulated, priority]⟩
  · exact ⟨.vegan, h5, rfl, by
      intro g hg; cases g <;> simp_all [isPopulated, priority]⟩
  · exact ⟨.dairy_free, h6, rfl, by
      intro g hg; cases g <;> simp_all [isPopulated, priority]⟩
  · exact ⟨.category, h7, rfl, by
      intro g hg; cases g <;> simp_all [isPopulated, priority]⟩
  · exact ⟨.temperature, h8, rfl, by
      intro g hg; cases g <;> simp_all [isPopulated, priority]⟩

theorem numPopulated_removeField {c : ConstraintSet} {f : CField}
    (h : isPopulated c f = true) :
    numPopulated (removeField c f) + 1 = numPopulated c := by
  cases f <;> simp only [isPopulated] at h <;>
    simp [numPopulated, removeField, h] <;> omega

theorem matches_removeField (item : Item) (c : ConstraintSet) (f : CField)
    (h : matchesConstraints item c = true) :
    matchesConstraints item (removeField c f) = true := by
  cases f <;> simp_all [matchesConstraints, removeField, passCeiling, passExact]

/-! ## Claim theorems -/

/-- C1: `score(s, true)` equals `1.25 * s`, `score(s, false)` equals
`s` unchanged, and for `s ≥ 0` the boosted score is at least the
unboosted one. -/
theorem score_boost_spec (s : ℚ) :
    score s true = 1.25 * s ∧ score s false = s ∧
    (0 ≤ s → score s false ≤ score s true) := by
  refine ⟨by simp [score, BOOST_FACTOR], by simp [score], ?_⟩
  intro hs
  simp only [score, if_pos, if_neg, Bool.false_eq_true, not_false_eq_true,
    ite_true, ite_false, BOOST_FACTOR]
  nlinarith

/-- Witness for C1 at `s = 1`. -/
theorem score_boost_spec_witness : score 1 false ≤ score 1 true :=
  (score_boost_spec 1).2.2 (by decide)

/-- C2: `relax` signals NoMoreConstraintsToRelax (returns `none`)
exactly on the empty constraint set; on a non-empty set it removes
exactly one populated field, the one with the least priority (numeric
ceilings before dietary flags before category/temperature). -/
theorem relax_spec (c : ConstraintSet) :
    (relax c = none ↔ numPopulated c = 0) ∧
    (∀ c', relax c = some c' →
      ∃ f, isPopulated c f = true ∧ c' = removeField c f ∧
        numPopulated c' + 1 = numPopulated c ∧
        ∀ g, isPopulated c g = true → priority f ≤ priority g) := by
  refine ⟨relax_eq_none_iff c, ?_⟩
  intro c' h
  obtain ⟨f, hf, rfl, hmin⟩ := relax_some c c' h
  exact ⟨f, hf, rfl, numPopulated_removeField hf, hmin⟩

/-- Witness for C2: relaxing `cWitness` drops its price ceiling. -/
theorem relax_spec_witness :
    ∃ f, isPopulated cWitness f = true ∧
      cWitnessRelaxed = removeField cWitness f ∧
      numPopulated cWitnessRelaxed + 1 = numPopulated cWitness ∧
      ∀ g, isPopulated cWitness g = true → priority f ≤ priority g :=
  (relax_spec cWitness).2 cWitnessRelaxed (by decide)

/-- C7: `matchesConstraints` is monotone under `relax`: an item that
fails the relaxed constraints also fails the original ones. -/
theorem matches_monotone_relax (item : Item) (c c' : ConstraintSet)
    (hrel : relax c = some c') (hm : matchesConstraints item c' = false) :
    matchesConstraints item c = false := by
  obtain ⟨f, -, rfl, -⟩ := relax_some c c' hrel
  by_contra hc
  rw [Bool.not_eq_false] at hc
  rw [matches_removeField item c f hc] at hm
  simp at hm

/-- Witness for C7: item Y fails the relaxed witness constraints, so it
fails the original ones. -/
theorem matches_monotone_relax_witness :
    matchesConstraints itemY cWitness = false :=
  matches_monotone_relax itemY cWitness cWitnessRelaxed (by decide) (by decide)

/-- The explicit reading of the ranking order: descending final score,
ties broken by satisfies-all true before false, then lower price, then
identifier ascending. -/
theorem rankPrecedes_iff (a b : ScoredCandidate) :
    RankPrecedes a b ↔
      (b.final_score < a.final_score ∨
       (a.final_score = b.final_score ∧
         ((a.satisfies_all = true ∧ b.satisfies_all = false) ∨
          (a.satisfies_all = b.satisfies_all ∧
            (a.item.price < b.item.price ∨
             (a.item.price = b.item.price ∧ a.item.id ≤ b.item.id)))))) := by
  unfold RankPrecedes rankKey
  rw [Prod.Lex.le_iff]
  simp only [Prod.Lex.le_iff, Prod.Lex.lt_iff, neg_lt_neg_iff, neg_inj, Bool.lt_iff,
    Bool.not_eq_true', Bool.not_eq_false', Bool.not_inj_iff]

/-- C3: in scenario A the vegan, cheap item X scores 0.75 (boosted from
0.60), the non-vegan, expensive item Y keeps 0.90, and the ranked order
is [Y, X]: score ordering is primary, the satisfies-all flag does not
reorder across different scores. -/
theorem scenario_A_ranking :
    rank [⟨itemX, 0.60⟩, ⟨itemY, 0.90⟩] scenarioConstraints 5 =
      Except.ok ⟨[⟨itemY, 0.90, false, 0.90⟩, ⟨itemX, 0.60, true, 0.75⟩],
                 scenarioConstraints⟩ := by
  have hX : scoreCandidate scenarioConstraints ⟨itemX, 0.60⟩ =
      ⟨itemX, 0.60, true, 0.75⟩ := by
    norm_num [scoreCandidate, matchesConstraints, passCeiling, passExact,
      itemX, scenarioConstraints, score, BOOST_FACTOR]
  have hY : scoreCandidate scenarioConstraints ⟨itemY, 0.90⟩ =
      ⟨itemY, 0.90, false, 0.90⟩ := by
    norm_num [scoreCandidate, matchesConstraints, passCeiling, passExact,
      itemY, scenarioConstraints, score, BOOST_FACTOR]
  have hno : ¬ RankPrecedes ⟨itemX, 0.60, true, 0.75⟩ ⟨itemY, 0.90, false, 0.90⟩ := by
    rw [rankPrecedes_iff]
    norm_num
  unfold rank
  rw [if_neg (by decide : ¬ (5 : ℤ) ≤ 0)]
  simp only [List.map, hX, hY, List.insertionSort, List.orderedInsert]
  rw [if_neg hno]
  rfl

/-- C4: the ranker is deterministic and realises the total order of
spec 4.4 — the output of a successful `rank` is pairwise ordered by
descending final score with the documented tie-breaks, the order is
total, and two runs on the same inputs agree. -/
theorem rank_deterministic_sorted (candidates : List Candidate)
    (constraints : ConstraintSet) (top_k : ℤ) :
    (∀ a b : ScoredCandidate, RankPrecedes a b ∨ RankPrecedes b a) ∧
    (∀ r, rank candidates constraints top_k = Except.ok r →
      r.results.Pairwise (fun a b =>
        b.final_score < a.final_score ∨
        (a.final_score = b.final_score ∧
          ((a.satisfies_all = true ∧ b.satisfies_all = false) ∨
           (a.satisfies_all = b.satisfies_all ∧
             (a.item.price < b.item.price ∨
              (a.item.price = b.item.price ∧ a.item.id ≤ b.item.id))))))) ∧
    rank candidates constraints top_k = rank candidates constraints top_k := by
  refine ⟨fun a b => le_total (rankKey a) (rankKey b), ?_, rfl⟩
  intro r hr
  unfold rank at hr
  split_ifs at hr
  replace hr := Except.ok.inj hr
  subst hr
  have hs : List.Pairwise RankPrecedes
      ((candidates.map (scoreCandidate constraints)).insertionSort RankPrecedes) :=
    List.sorted_insertionSort RankPrecedes _
  have ht : List.Pairwise RankPrecedes
      (((candidates.map (scoreCandidate constraints)).insertionSort
        RankPrecedes).take top_k.toNat) :=
    hs.sublist (List.take_sublist top_k.toNat _)
  exact ht.imp (fun hab => (rankPrecedes_iff _ _).mp hab)

/-- Witness for C4 on an empty candidate pool. -/
theorem rank_deterministic_sorted_witness :
    (RankedResult.mk [] emptyConstraints).results.Pairwise (fun a b =>
      b.final_score < a.final_score ∨
      (a.final_score = b.final_score ∧
        ((a.satisfies_all = true ∧ b.satisfies_all = false) ∨
         (a.satisfies_all = b.satisfies_all ∧
           (a.item.price < b.item.price ∨
            (a.item.price = b.item.price ∧ a.item.id ≤ b.item.id)))))) :=
  (rank_deterministic_sorted [] emptyConstraints 1).2.1 _ (by rfl)

/-- C5: `rank` signals InvalidArgument exactly on a non-positive
`top_k`; on a positive `top_k` it returns min(top_k, pool size)
results, never padding. -/
theorem rank_top_k_spec (candidates : List Candidate)
    (constraints : ConstraintSet) (top_k : ℤ) :
    (top_k ≤ 0 →
      rank candidates constraints top_k = Except.error RankError.invalidArgument) ∧
    (0 < top_k → ∃ r, rank candidates constraints top_k = Except.ok r ∧
      r.results.length = min top_k.toNat candidates.length) := by
  constructor
  · intro h
    simp [rank, h]
  · intro h
    have hlen : ((candidates.map (scoreCandidate constraints)).insertionSort
        RankPrecedes).length = candidates.length := by
      rw [(List.perm_insertionSort RankPrecedes _).length_eq, List.length_map]
    refine ⟨⟨((candidates.map (scoreCandidate constraints)).insertionSort
        RankPrecedes).take top_k.toNat, constraints⟩, ?_, ?_⟩
    · simp [rank, not_le.mpr h]
    · simp [List.length_take, hlen]

/-- Witness for C5: `top_k = 0` signals InvalidArgument. -/
theorem rank_top_k_spec_witness :
    rank [] emptyConstraints 0 = Except.error RankError.invalidArgument :=
  (rank_top_k_spec [] emptyConstraints 0).1 (by decide)

/-- C6: `recall_at_k` is the fraction of the relevant set present in
the first `k` ranked ids, equals exactly 1 on an empty relevant set,
and always lies in [0, 1]. -/
theorem recall_at_k_spec (ranked_ids : List String)
    (relevant_id_set : Finset String) (k : ℕ) :
    (relevant_id_set = ∅ → recall_at_k ranked_ids relevant_id_set k = 1) ∧
    (relevant_id_set ≠ ∅ →
      recall_at_k ranked_ids relevant_id_set k =
        ((relevant_id_set.filter (fun id => id ∈ ranked_ids.take k)).card : ℚ) /
          (relevant_id_set.card : ℚ)) ∧
    0 ≤ recall_at_k ranked_ids relevant_id_set k ∧
    recall_at_k ranked_ids relevant_id_set k ≤ 1 := by
  refine ⟨fun h => by simp [recall_at_k, h], fun h => by simp [recall_at_k, h], ?_, ?_⟩
  · by_cases h : relevant_id_set = ∅
    · simp [recall_at_k, h]
    · simp only [recall_at_k, h, if_neg, ite_false]
      positivity
  · by_cases h : relevant_id_set = ∅
    · simp [recall_at_k, h]
    · have hpos : 0 < (relevant_id_set.card : ℚ) := by
        exact_mod_cast Finset.card_pos.mpr (Finset.nonempty_iff_ne_empty.mpr h)
      simp only [recall_at_k, h, if_neg, ite_false]
      rw [div_le_one hpos]
      exact_mod_cast Finset.card_filter_le relevant_id_set _

/-- Witness for C6: empty relevant set gives recall exactly 1. -/
theorem recall_at_k_spec_witness : recall_at_k [] ∅ 5 = 1 :=
  (recall_at_k_spec [] ∅ 5).1 rfl

/-- The relaxation loop performs at most as many relaxation steps as it
has budget. -/
theorem retrieveLoop_steps_le (index : ConstraintSet → List Candidate)
    (min_candidates : ℕ) :
    ∀ fuel c, (retrieveLoop index min_candidates fuel c).relaxation_steps ≤ fuel := by
  intro fuel
  induction fuel with
  | zero => intro c; simp [retrieveLoop]
  | succ n ih =>
    intro c
    rw [retrieveLoop]
    split_ifs
    · simp
    · cases hrel : relax c with
      | none => simp
      | some c' =>
        simp only
        exact Nat.succ_le_succ (ih c')

/-- C8: retrieval is a total function whose relaxation loop is bounded
by `max_relaxations`; it stops immediately when the first query already
returns enough candidates, and performs no relaxation step on an
already-empty constraint set. -/
theorem retrieve_bounded (index : ConstraintSet → List Candidate)
    (constraints : ConstraintSet) (min_candidates max_relaxations : ℕ) :
    (retrieve index constraints min_candidates max_relaxations).relaxation_steps ≤
      max_relaxations ∧
    (min_candidates ≤ (index constraints).length →
      retrieve index constraints min_candidates max_relaxations =
        ⟨index constraints, constraints, 0⟩) ∧
    (numPopulated constraints = 0 →
      (retrieve index constraints min_candidates max_relaxations).relaxation_steps = 0) := by
  refine ⟨retrieveLoop_steps_le index min_candidates max_relaxations constraints, ?_, ?_⟩
  · intro h
    cases max_relaxations with
    | zero => rfl
    | succ n => rw [retrieve, retrieveLoop, if_pos h]
  · intro h
    have hrel : relax constraints = none := (relax_eq_none_iff constraints).mpr h
    cases max_relaxations with
    | zero => rfl
    | succ n =>
      rw [retrieve, retrieveLoop]
      split_ifs
      · rfl
      · simp [hrel]

/-- Witness for C8 with an empty index and empty constraints. -/
theorem retrieve_bounded_witness :
    retrieve (fun _ => []) emptyConstraints 0 0 = ⟨[], emptyConstraints, 0⟩ :=
  (retrieve_bounded (fun _ => []) emptyConstraints 0 0).2.1 (by decide)

/-- C9 counterexample: toggling an id that sits in the middle of the
selection twice does not restore the original list — the id moves to
the end. -/
theorem toggle_not_involutive :
    List.Nodup ["A", "B"] ∧
    toggleProductSelection (toggleProductSelection ["A", "B"] "A") "A" ≠
      ["A", "B"] := by
  decide

/-- C9 (amended): on a duplicate-free selection, toggling removes the
id when present and appends it when absent, preserves
duplicate-freeness, and toggling twice restores the original selection
up to reordering (the toggled id moves to the end); when the id was
absent the original list is restored exactly. -/
theorem toggleProductSelection_spec (l : List String) (pid : String)
    (hnd : l.Nodup) :
    (pid ∈ l → toggleProductSelection l pid = l.filter (fun id => id != pid)) ∧
    (pid ∉ l → toggleProductSelection l pid = l ++ [pid]) ∧
    (toggleProductSelection l pid).Nodup ∧
    (toggleProductSelection (toggleProductSelection l pid) pid).Perm l ∧
    (pid ∉ l → toggleProductSelection (toggleProductSelection l pid) pid = l) := by
  have hin : ∀ m : List String, pid ∈ m →
      toggleProductSelection m pid = m.filter (fun id => id != pid) := by
    intro m hm
    simp [toggleProductSelection, List.elem_eq_mem, hm]
  have hout : ∀ m : List String, pid ∉ m →
      toggleProductSelection m pid = m ++ [pid] := by
    intro m hm
    simp [toggleProductSelection, List.elem_eq_mem, hm]
  refine ⟨hin l, hout l, ?_, ?_, ?_⟩
  · by_cases h : pid ∈ l
    · rw [hin l h]
      exact hnd.filter _
    · rw [hout l h]
      simp [List.nodup_append, hnd, h]
  · by_cases h : pid ∈ l
    · rw [hin l h]
      have hf : pid ∉ l.filter (fun id => id != pid) := by
        simp [List.mem_filter]
      rw [hout _ hf]
      have hnodup₁ : (l.filter (fun id => id != pid) ++ [pid]).Nodup := by
        simp [List.nodup_append, hnd.filter, hf]
      rw [List.perm_ext_iff_of_nodup hnodup₁ hnd]
      intro a
      simp only [List.mem_append, List.mem_filter, List.mem_singleton, bne_iff_ne,
        ne_eq]
      constructor
      · rintro (⟨ha, -⟩ | rfl)
        · exact ha
        · exact h
      · intro ha
        by_cases hapid : a = pid
        · exact Or.inr hapid
        · exact Or.inl ⟨ha, hapid⟩
    · rw [hout l h]
      have hmem : pid ∈ l ++ [pid] := by simp
      rw [hin _ hmem, List.filter_append]
      have h1 : l.filter (fun id => id != pid) = l := by
        rw [List.filter_eq_self]
        intro a ha
        simp only [bne_iff_ne, ne_eq]
        exact fun hc => h (hc ▸ ha)
      have h2 : [pid].filter (fun id => id != pid) = [] := by simp
      rw [h1, h2, List.append_nil]
  · intro h
    rw [hout l h]
    have hmem : pid ∈ l ++ [pid] := by simp
    rw [hin _ hmem, List.filter_append]
    have h1 : l.filter (fun id => id != pid) = l := by
      rw [List.filter_eq_self]
      intro a ha
      simp only [bne_iff_ne, ne_eq]
      exact fun hc => h (hc ▸ ha)
    have h2 : [pid].filter (fun id => id != pid) = [] := by simp
    rw [h1, h2, List.append_nil]

/-- Witness for C9 (amended) on a concrete selection. -/
theorem toggleProductSelection_spec_witness :
    (toggleProductSelection (toggleProductSelection ["A", "B"] "A") "A").Perm
      ["A", "B"] :=
  (toggleProductSelection_spec ["A", "B"] "A" (by decide)).2.2.2.1

/-- Any single App transition lands in a cleared state whenever it
lands on the landing page. -/
theorem appStep_landing_clear (s : AppState) (e : AppEvent) :
    (appStep s e).currentPage = Page.landing →
      (appStep s e).selectedQuery = none ∧
      (appStep s e).selectedProductIds = [] ∧
      (appStep s e).allProducts = [] := by
  cases e <;> simp [appStep, handleBackToLanding]

/-- The landing-page invariant is preserved along any event sequence. -/
theorem foldl_landing_clear :
    ∀ (events : List AppEvent) (s : AppState),
      (s.currentPage = Page.landing →
        s.selectedQuery = none ∧ s.selectedProductIds = [] ∧ s.allProducts = []) →
      ((events.foldl appStep s).currentPage = Page.landing →
        (events.foldl appStep s).selectedQuery = none ∧
        (events.foldl appStep s).selectedProductIds = [] ∧
        (events.foldl appStep s).allProducts = []) := by
  intro events
  induction events with
  | nil => intro s hs; exact hs
  | cons e rest ih =>
    intro s _
    rw [List.foldl_cons]
    exact ih (appStep s e) (appStep_landing_clear s e)

/-- C10: in every reachable App state showing the landing page, the
selected query, the selected product ids and the product list are all
cleared. -/
theorem landing_page_selection_cleared (events : List AppEvent) :
    (runApp events).currentPage = Page.landing →
      (runApp events).selectedQuery = none ∧
      (runApp events).selectedProductIds = [] ∧
      (runApp events).allProducts = [] :=
  foldl_landing_clear events initialAppState (fun _ => ⟨rfl, rfl, rfl⟩)

/-- Witness for C10 after a select-query / back-to-landing round
trip. -/
theorem landing_page_selection_cleared_witness :
    (runApp [AppEvent.selectQuery ⟨"q1", "vegan latte"⟩,
             AppEvent.backToLanding]).selectedQuery = none ∧
    (runApp [AppEvent.selectQuery ⟨"q1", "vegan latte"⟩,
             AppEvent.backToLanding]).selectedProductIds = [] ∧
    (runApp [AppEvent.selectQuery ⟨"q1", "vegan latte"⟩,
             AppEvent.backToLanding]).allProducts = [] :=
  landing_page_selection_cleared
    [AppEvent.selectQuery ⟨"q1", "vegan latte"⟩, AppEvent.backToLanding] (by rfl)

end StarbucksRec
